import Mathlib

/-!
Shallow embedding of the blockchain-data-storage chain engine
(src/src/core/mod.rs, src/src/consensus/mod.rs, src/src/storage/mod.rs,
src/src/mempool.rs, src/src/offchain_storage.rs).

Modelling conventions:
- Machine integers (u8, u32, u64) are `Nat` with explicit `% 2^w` where the
  source relies on wrapping; `saturating_sub` on u64 is plain `Nat`
  subtraction, which is already saturating.
- `[u8; 32]` hashes and `Vec<u8>` byte strings are `List Nat` of byte values.
- SHA-256 (the `sha2` crate) and the bincode 1.x canonical serialization are
  implemented concretely below, so every hash the model computes is the very
  byte string the program computes.
- RocksDB is a pure key-value state: each column the code uses becomes a
  field of `StorageManager`.  Values of the metadata keys (`lh`, `ch`,
  height → hash) are kept as raw byte lists so that the length checks of
  `get_hash_by_height`, `get_last_block_hash` and `get_chain_height` are
  modelled exactly; block bodies are stored structurally, standing for their
  bincode serialization (the round-trip is the serializer's contract).
- Fallible Rust functions returning `Result` become `Except`; in the pure
  model the underlying store itself never fails, so the `rocksdb::Error`
  branch of each `Result` is simply never produced.
- `f64` arithmetic in `calculate_next_difficulty` is modelled bit-exactly:
  every f64 value is carried as an exact nonnegative rational, a pair
  `(num, den) : Nat × Nat`, and each inexact operation (the integer-to-f64
  casts, the division, the multiplication) applies `rne53`, IEEE-754
  binary64 round-to-nearest ties-to-even at 53 significand bits (no
  overflow or subnormals arise in this computation's range, and no value is
  negative); `f64::clamp` compares exact values (`f64clamp`); `f64::round`
  (ties away from zero, nonnegative here) followed by `as u32` is
  `qRoundTiesAwayToNat` (the u32 saturation cannot change the subsequent
  `min _ MAX_DIFFICULTY`); the u32 addition of the zero-interval branch
  wraps mod 2^32 as in release builds.
- Functions that read the system clock take the current time as an explicit
  `now : Nat` argument.
-/

namespace Chain

/-- 32-bit modulus used by SHA-256 word arithmetic. -/
def M32 : Nat := 4294967296

/-- Big-endian 4-byte encoding of a 32-bit word. -/
def u32BE (n : Nat) : List Nat := [n / 16777216 % 256, n / 65536 % 256, n / 256 % 256, n % 256]

/-- Big-endian 8-byte encoding of a u64 (`u64::to_be_bytes`). -/
def u64BE (n : Nat) : List Nat :=
  [n / 72057594037927936 % 256, n / 281474976710656 % 256, n / 1099511627776 % 256,
   n / 4294967296 % 256, n / 16777216 % 256, n / 65536 % 256, n / 256 % 256, n % 256]

/-- Little-endian 4-byte encoding of a u32 (bincode fixint). -/
def u32LE (n : Nat) : List Nat := [n % 256, n / 256 % 256, n / 65536 % 256, n / 16777216 % 256]

/-- Little-endian 8-byte encoding of a u64 (bincode fixint). -/
def u64LE (n : Nat) : List Nat :=
  [n % 256, n / 256 % 256, n / 65536 % 256, n / 16777216 % 256,
   n / 4294967296 % 256, n / 1099511627776 % 256, n / 281474976710656 % 256,
   n / 72057594037927936 % 256]

/-- Big-endian byte list decoded to a `Nat` (`u64::from_be_bytes`). -/
def beNat (l : List Nat) : Nat := l.foldl (fun a b => a * 256 + b) 0

/-- 32-bit right rotation. -/
def rotr32 (n x : Nat) : Nat := ((x >>> n) ||| (x <<< (32 - n))) % M32

/-- SHA-256 Σ₀. -/
def bsig0 (x : Nat) : Nat := rotr32 2 x ^^^ rotr32 13 x ^^^ rotr32 22 x

/-- SHA-256 Σ₁. -/
def bsig1 (x : Nat) : Nat := rotr32 6 x ^^^ rotr32 11 x ^^^ rotr32 25 x

/-- SHA-256 σ₀. -/
def ssig0 (x : Nat) : Nat := rotr32 7 x ^^^ rotr32 18 x ^^^ (x >>> 3)

/-- SHA-256 σ₁. -/
def ssig1 (x : Nat) : Nat := rotr32 17 x ^^^ rotr32 19 x ^^^ (x >>> 10)

/-- SHA-256 Ch function (¬e taken within 32 bits). -/
def chF (e f g : Nat) : Nat := (e &&& f) ^^^ ((e ^^^ 4294967295) &&& g)

/-- SHA-256 Maj function. -/
def majF (a b c : Nat) : Nat := (a &&& b) ^^^ (a &&& c) ^^^ (b &&& c)

/-- The 64 SHA-256 round constants (FIPS 180-4, in decimal). -/
def sha256K : List Nat :=
  [1116352408, 1899447441, 3049323471, 3921009573, 961987163, 1508970993,
   2453635748, 2870763221, 3624381080, 310598401, 607225278, 1426881987,
   1925078388, 2162078206, 2614888103, 3248222580, 3835390401, 4022224774,
   264347078, 604807628, 770255983, 1249150122, 1555081692, 1996064986,
   2554220882, 2821834349, 2952996808, 3210313671, 3336571891, 3584528711,
   113926993, 338241895, 666307205, 773529912, 1294757372, 1396182291,
   1695183700, 1986661051, 2177026350, 2456956037, 2730485921, 2820302411,
   3259730800, 3345764771, 3516065817, 3600352804, 4094571909, 275423344,
   430227734, 506948616, 659060556, 883997877, 958139571, 1322822218,
   1537002063, 1747873779, 1955562222, 2024104815, 2227730452, 2361852424,
   2428436474, 2756734187, 3204031479, 3329325298]

/-- The SHA-256 initial hash state (FIPS 180-4, in decimal). -/
def sha256H0 : List Nat :=
  [1779033703, 3144134277, 1013904242, 2773480762,
   1359893119, 2600822924, 528734635, 1541459225]

/-- SHA-256 padding: append 0x80, zeros to 56 mod 64, then the bit length big-endian. -/
def padMessage (msg : List Nat) : List Nat :=
  msg ++ [0x80] ++ List.replicate ((55 + 64 - msg.length % 64) % 64) 0 ++ u64BE (msg.length * 8)

/-- Split a byte list into 64-byte blocks (fuel-indexed; called with enough fuel). -/
def chunksOf64 : Nat → List Nat → List (List Nat)
  | 0, _ => []
  | fuel + 1, l => if l.isEmpty then [] else l.take 64 :: chunksOf64 fuel (l.drop 64)

/-- Group bytes into big-endian 32-bit words. -/
def bytesToWords : List Nat → List Nat
  | b0 :: b1 :: b2 :: b3 :: rest => (((b0 * 256 + b1) * 256 + b2) * 256 + b3) :: bytesToWords rest
  | _ => []

/-- Extend the 16 message words to the full 64-entry schedule. -/
def extendWords : Nat → List Nat → List Nat
  | 0, ws => ws
  | n + 1, ws =>
    extendWords n (ws ++
      [(ssig1 (ws.getD (ws.length - 2) 0) + ws.getD (ws.length - 7) 0 +
        ssig0 (ws.getD (ws.length - 15) 0) + ws.getD (ws.length - 16) 0) % M32])

/-- One SHA-256 compression round on the 8-word working state. -/
def sha256Round (st : List Nat) (kw : Nat × Nat) : List Nat :=
  match st with
  | [a, b, c, d, e, f, g, h] =>
    [((h + bsig1 e + chF e f g + kw.1 + kw.2) % M32 + (bsig0 a + majF a b c) % M32) % M32,
     a, b, c, (d + (h + bsig1 e + chF e f g + kw.1 + kw.2) % M32) % M32, e, f, g]
  | st => st

/-- Process one padded 64-byte block. -/
def sha256Block (st : List Nat) (block : List Nat) : List Nat :=
  ((st.zip ((sha256K.zip (extendWords 48 (bytesToWords block))).foldl sha256Round st)).map
    (fun p => (p.1 + p.2) % M32))

/-- SHA-256 of a byte list, as its 32-byte digest. -/
def sha256 (msg : List Nat) : List Nat :=
  (((chunksOf64 (padMessage msg).length (padMessage msg)).foldl sha256Block sha256H0).map
    u32BE).flatten

/-- A 32-byte SHA-256 digest, `type Hash = [u8; 32]` in src/src/core/mod.rs. -/
abbrev Hash := List Nat

/-- The all-zero 32-byte hash (`[0u8; 32]`). -/
def zeroHash : Hash := List.replicate 32 0

/-- `struct Transaction` of src/src/core/mod.rs: sender, receiver, amount,
timestamp, optional data hash and data size (storage transactions). -/
structure Transaction where
  sender : List Nat
  receiver : List Nat
  amount : Nat
  timestamp : Nat
  data_hash : Option (List Nat)
  data_size : Option Nat
deriving DecidableEq

/-- bincode 1.x encoding of a `Vec<u8>`: u64 little-endian length, then the bytes. -/
def serBytes (v : List Nat) : List Nat := u64LE v.length ++ v

/-- bincode 1.x encoding of an `Option`: one tag byte 0/1, then the payload. -/
def serOption (f : α → List Nat) : Option α → List Nat
  | none => [0]
  | some x => 1 :: f x

/-- bincode 1.x serialization of a `Transaction`, fields in declaration order. -/
def Transaction.serialize (t : Transaction) : List Nat :=
  serBytes t.sender ++ serBytes t.receiver ++ u64LE t.amount ++ u64LE t.timestamp ++
    serOption serBytes t.data_hash ++ serOption u64LE t.data_size

/-- `Transaction::calculate_hash`: SHA-256 of the bincode serialization. -/
def Transaction.calculate_hash (t : Transaction) : Hash := sha256 t.serialize

/-- `struct BlockHeader` of src/src/core/mod.rs. -/
structure BlockHeader where
  previous_hash : Hash
  merkle_root : Hash
  timestamp : Nat
  nonce : Nat
  difficulty : Nat
  height : Nat
deriving DecidableEq

/-- bincode 1.x serialization of a `BlockHeader` ([u8; 32] is raw bytes,
u64 and u32 little-endian fixint). -/
def BlockHeader.serialize (h : BlockHeader) : List Nat :=
  h.previous_hash ++ h.merkle_root ++ u64LE h.timestamp ++ u64LE h.nonce ++
    u32LE h.difficulty ++ u64LE h.height

/-- `BlockHeader::calculate_hash`: SHA-256 of the bincode serialization. -/
def BlockHeader.calculate_hash (h : BlockHeader) : Hash := sha256 h.serialize

/-- `struct Block` of src/src/core/mod.rs. -/
structure Block where
  header : BlockHeader
  transactions : List Transaction
deriving DecidableEq

/-- `Block::calculate_merkle_root`: all-zero for no transactions, else the
SHA-256 of the concatenation of the transaction hashes in order. -/
def Block.calculate_merkle_root (transactions : List Transaction) : Hash :=
  if transactions.isEmpty then zeroHash
  else sha256 ((transactions.map Transaction.calculate_hash).flatten)

/-- `Block::hash`: the hash of the header. -/
def Block.hash (b : Block) : Hash := b.header.calculate_hash

/-- `TARGET_BLOCK_TIME_SECS` of src/src/consensus/mod.rs. -/
def TARGET_BLOCK_TIME_SECS : Nat := 600

/-- `ADJUSTMENT_INTERVAL_BLOCKS` of src/src/consensus/mod.rs. -/
def ADJUSTMENT_INTERVAL_BLOCKS : Nat := 20

/-- `MIN_DIFFICULTY` of src/src/consensus/mod.rs. -/
def MIN_DIFFICULTY : Nat := 4

/-- `MAX_DIFFICULTY` of src/src/consensus/mod.rs. -/
def MAX_DIFFICULTY : Nat := 60

/-- `MAX_DIFFICULTY_CHANGE_FACTOR` of src/src/consensus/mod.rs (the f64
constant 4.0, exactly representable, carried as an exact rational pair). -/
def MAX_DIFFICULTY_CHANGE_FACTOR : Nat × Nat := (4, 1)

/-- `verify_pow` of src/src/consensus/mod.rs: the first `difficulty / 8`
bytes must be zero and, if `difficulty % 8 > 0`, the top bits of the next
byte must be zero under the mask `0xFF << (8 - difficulty % 8)` (a u8 shift,
hence taken mod 256). -/
def verify_pow (hash : Hash) (difficulty : Nat) : Bool :=
  if difficulty = 0 then true
  else
    if ¬ ((hash.take (difficulty / 8)).all fun b => b == 0) then false
    else if difficulty % 8 > 0 then
      match hash.get? (difficulty / 8) with
      | some next_byte =>
        if next_byte &&& ((255 <<< (8 - difficulty % 8)) % 256) ≠ 0 then false else true
      | none => false
    else true

/-- The RocksDB state used by `StorageManager` (src/src/storage/mod.rs), one
field per key family: `b`-prefixed block bodies, `h`-prefixed height→hash
entries (raw value bytes), and the `lh` / `ch` metadata values (raw bytes). -/
structure StorageManager where
  blocks : List (Hash × Block)
  heightToHash : List (Nat × List Nat)
  lastHash : Option (List Nat)
  chainHeight : Option (List Nat)
deriving DecidableEq

/-- `StorageManager::save_block`: one atomic batch writing the block body,
the height→hash entry, the tip hash and the tip height. -/
def StorageManager.save_block (s : StorageManager) (block : Block) : StorageManager :=
  { blocks := (block.hash, block) :: s.blocks,
    heightToHash := (block.header.height, block.hash) :: s.heightToHash,
    lastHash := some block.hash,
    chainHeight := some (u64BE block.header.height) }

/-- `StorageManager::get_block_by_hash`. -/
def StorageManager.get_block_by_hash (s : StorageManager) (hash : Hash) :
    Except String (Option Block) :=
  .ok (s.blocks.lookup hash)

/-- `StorageManager::get_hash_by_height`: a present value of length ≠ 32 is
logged and reported as `Ok(None)`. -/
def StorageManager.get_hash_by_height (s : StorageManager) (height : Nat) :
    Except String (Option Hash) :=
  match s.heightToHash.lookup height with
  | some hash_vec => if hash_vec.length = 32 then .ok (some hash_vec) else .ok none
  | none => .ok none

/-- `StorageManager::get_block_by_height`: hash by height, then block by hash. -/
def StorageManager.get_block_by_height (s : StorageManager) (height : Nat) :
    Except String (Option Block) :=
  match s.get_hash_by_height height with
  | .error e => .error e
  | .ok (some hash) => s.get_block_by_hash hash
  | .ok none => .ok none

/-- `StorageManager::get_last_block_hash`: a present value of length ≠ 32 is
logged and reported as `Ok(None)`. -/
def StorageManager.get_last_block_hash (s : StorageManager) : Except String (Option Hash) :=
  match s.lastHash with
  | some hash_vec => if hash_vec.length = 32 then .ok (some hash_vec) else .ok none
  | none => .ok none

/-- `StorageManager::get_chain_height`: a present value of length ≠ 8 is
logged and reported as `Ok(None)`; otherwise decoded big-endian. -/
def StorageManager.get_chain_height (s : StorageManager) : Except String (Option Nat) :=
  match s.chainHeight with
  | some height_bytes => if height_bytes.length = 8 then .ok (some (beNat height_bytes)) else .ok none
  | none => .ok none

/-- f64::round (ties away from zero) on a nonnegative exact rational, as
used by the claim's exact-real reading of the difficulty formula. -/
def ratRound (q : ℚ) : Int := ⌊q + 1 / 2⌋

/-- Number of binary digits of `n` (fuel-indexed structural recursion). -/
def natBitsAux : Nat → Nat → Nat
  | 0, _ => 0
  | fuel + 1, n => if n = 0 then 0 else natBitsAux fuel (n / 2) + 1

/-- Number of binary digits of `n` (0 for 0). -/
def natBits (n : Nat) : Nat := natBitsAux n n

/-- Decides `2^e ≤ a / b` for positive naturals `a`, `b`. -/
def qpow2LE (a b : Nat) (e : Int) : Bool :=
  if 0 ≤ e then b <<< e.toNat ≤ a else b ≤ a <<< (-e).toNat

/-- The exponent e with `2^e ≤ a / b < 2^(e+1)`, for positive `a`, `b`:
the bit-length difference, corrected by direct comparison. -/
def qFloorLog2 (a b : Nat) : Int :=
  if qpow2LE a b ((natBits a : Int) - (natBits b : Int) + 1) then
    (natBits a : Int) - (natBits b : Int) + 1
  else if qpow2LE a b ((natBits a : Int) - (natBits b : Int)) then
    (natBits a : Int) - (natBits b : Int)
  else if qpow2LE a b ((natBits a : Int) - (natBits b : Int) - 1) then
    (natBits a : Int) - (natBits b : Int) - 1
  else (natBits a : Int) - (natBits b : Int) - 2

/-- Round the nonnegative rational `a / b` to the nearest IEEE-754 binary64
value (53-bit significand, round to nearest, ties to even), returned as an
exact rational pair.  The significand `⌊(a/b) · 2^(52−e)⌋` is computed by
integer division after shifting whichever side the sign of `52 − e`
requires, and the remainder decides the rounding direction.  Faithful on
this file's whole range of use: every value is zero or a normal double,
far from overflow and subnormals.  Checked bit-exactly against hardware
doubles on the counterexample and witness inputs. -/
def rne53 (a b : Nat) : Nat × Nat :=
  if a = 0 then (0, 1)
  else
    let e : Int := qFloorLog2 a b
    let N := if 0 ≤ 52 - e then a <<< (52 - e).toNat else a
    let D := if 0 ≤ 52 - e then b else b <<< (e - 52).toNat
    let f := N / D
    let f' := if 2 * (N % D) < D then f
      else if D < 2 * (N % D) then f + 1
      else if f % 2 = 0 then f else f + 1
    if 0 ≤ e - 52 then (f' <<< (e - 52).toNat, 1) else (f', 1 <<< (52 - e).toNat)

/-- The `u64 as f64` / `u32 as f64` cast: round-to-nearest-even (exact
below 2^53). -/
def f64ofNat (n : Nat) : Nat × Nat := rne53 n 1

/-- IEEE-754 binary64 division of two exactly-carried f64 values: the exact
quotient, rounded to nearest, ties to even. -/
def f64div (x y : Nat × Nat) : Nat × Nat := rne53 (x.1 * y.2) (x.2 * y.1)

/-- IEEE-754 binary64 product of the exact integer `c` (a u32 cast to f64,
hence exact) with an exactly-carried f64 value. -/
def f64mulNat (c : Nat) (x : Nat × Nat) : Nat × Nat := rne53 (c * x.1) x.2

/-- Exact strict comparison of two exactly-carried nonnegative f64 values. -/
def qlt (x y : Nat × Nat) : Bool := x.1 * y.2 < y.1 * x.2

/-- `f64::clamp(lo, hi)`: comparisons on f64 values are exact, so this is
the source's `if self < min { min } else if self > max { max } else self`. -/
def f64clamp (x lo hi : Nat × Nat) : Nat × Nat :=
  if qlt x lo then lo else if qlt hi x then hi else x

/-- `f64::round` (ties away from zero, nonnegative here) followed by
`as u32`: `⌊x + 1/2⌋` as a natural number. -/
def qRoundTiesAwayToNat (x : Nat × Nat) : Nat := (2 * x.1 + x.2) / (2 * x.2)

/-- `calculate_next_difficulty` of src/src/consensus/mod.rs.  The f64 steps
follow the source line by line under the bit-exact model: the two
`as f64` casts and the division (`f64div`), the clamp to
`[1.0 / MAX_DIFFICULTY_CHANGE_FACTOR, MAX_DIFFICULTY_CHANGE_FACTOR]`
(`f64clamp`), the product with the difficulty (`f64mulNat`), and
`.round() as u32` (`qRoundTiesAwayToNat`); the u32
`current_difficulty + 1` of the zero-interval branch wraps mod 2^32 as in
release builds. -/
def calculate_next_difficulty (current_height : Nat) (storage : StorageManager) :
    Except String Nat :=
  match storage.get_block_by_height current_height with
  | .error e => .error e
  | .ok none => .error "Current block not found in storage for difficulty calc"
  | .ok (some current) =>
    if (current_height + 1) % ADJUSTMENT_INTERVAL_BLOCKS ≠ 0 then
      .ok current.header.difficulty
    else if current_height - (ADJUSTMENT_INTERVAL_BLOCKS - 1) = 0 then
      .ok current.header.difficulty
    else
      match storage.get_block_by_height (current_height - (ADJUSTMENT_INTERVAL_BLOCKS - 1)) with
      | .error e => .error e
      | .ok none => .error "Interval start block not found for difficulty calc"
      | .ok (some interval_start) =>
        if current.header.timestamp - interval_start.header.timestamp = 0 then
          .ok (max MIN_DIFFICULTY
            (min ((current.header.difficulty + 1) % 4294967296) MAX_DIFFICULTY))
        else
          .ok (max MIN_DIFFICULTY (min
            (qRoundTiesAwayToNat (f64mulNat current.header.difficulty
              (f64clamp
                (f64div (f64ofNat (TARGET_BLOCK_TIME_SECS * ADJUSTMENT_INTERVAL_BLOCKS))
                  (f64ofNat (current.header.timestamp - interval_start.header.timestamp)))
                (f64div (f64ofNat 1) MAX_DIFFICULTY_CHANGE_FACTOR)
                MAX_DIFFICULTY_CHANGE_FACTOR)))
            MAX_DIFFICULTY))

/-- `struct Mempool` of src/src/mempool.rs: hash-keyed map plus FIFO order. -/
structure Mempool where
  transactions : List (Hash × Transaction)
  order : List Hash
  max_size : Nat
deriving DecidableEq

/-- `Mempool::new`. -/
def Mempool.new (max_size : Nat) : Mempool :=
  { transactions := [], order := [], max_size := max_size }

/-- `Mempool::add_transaction`: duplicate → `Ok(false)`; at capacity, evict
the head of `order` (if `order` is empty despite being at capacity the code
returns an error); then insert and push the hash at the back. -/
def Mempool.add_transaction (m : Mempool) (tx : Transaction) : Mempool × Except String Bool :=
  if (m.transactions.lookup tx.calculate_hash).isSome then (m, .ok false)
  else if m.transactions.length ≥ m.max_size then
    match m.order with
    | oldest :: rest =>
      ({ transactions := (tx.calculate_hash, tx) ::
           m.transactions.filter (fun p => p.1 ≠ oldest),
         order := rest ++ [tx.calculate_hash],
         max_size := m.max_size }, .ok true)
    | [] => (m, .error "Mempool full, but failed to evict oldest transaction")
  else
    ({ transactions := (tx.calculate_hash, tx) :: m.transactions,
       order := m.order ++ [tx.calculate_hash],
       max_size := m.max_size }, .ok true)

/-- `Mempool::get_transactions`: first `max_count` of the order, looked up. -/
def Mempool.get_transactions (m : Mempool) (max_count : Nat) : List Transaction :=
  (m.order.take max_count).filterMap fun h => m.transactions.lookup h

/-- Loop body of `Mempool::remove_transactions`: remove the hash from the map
and, when it was present, from the order. -/
def Mempool.removeStep (m : Mempool) (h : Hash) : Mempool :=
  if (m.transactions.lookup h).isSome then
    { transactions := m.transactions.filter (fun p => p.1 ≠ h),
      order := m.order.filter (fun x => x ≠ h),
      max_size := m.max_size }
  else m

/-- `Mempool::remove_transactions`. -/
def Mempool.remove_transactions (m : Mempool) (tx_hashes : List Hash) : Mempool :=
  tx_hashes.foldl Mempool.removeStep m

/-- `Mempool::size`. -/
def Mempool.size (m : Mempool) : Nat := m.transactions.length

/-- `enum BlockchainError` of src/src/core/mod.rs (display strings carry the
static part of each message). -/
inductive BlockchainError where
  | Storage : String → BlockchainError
  | Validation : String → BlockchainError
  | Consensus : String → BlockchainError
  | Initialization : String → BlockchainError
  | BlockNotFoundByHash : String → BlockchainError
  | BlockNotFoundByHeight : Nat → BlockchainError
  | GenesisAlreadyExists : BlockchainError
  | NotInitialized : BlockchainError
  | Mempool : String → BlockchainError
deriving DecidableEq

/-- `MAX_TRANSACTIONS_PER_BLOCK` of src/src/core/mod.rs. -/
def MAX_TRANSACTIONS_PER_BLOCK : Nat := 100

/-- `MEMPOOL_MAX_SIZE` of src/src/core/mod.rs. -/
def MEMPOOL_MAX_SIZE : Nat := 1000

/-- `struct Blockchain` of src/src/core/mod.rs. -/
structure Blockchain where
  storage : StorageManager
  mempool : Mempool
  current_tip_hash : Option Hash
  current_height : Option Nat
deriving DecidableEq

/-- `Blockchain::new` over an already-opened store: read the tip hash and
height; exactly one present is an inconsistent state; otherwise cache both. -/
def Blockchain.new (storage : StorageManager) : Except BlockchainError Blockchain :=
  match storage.get_last_block_hash, storage.get_chain_height with
  | .error e, _ => .error (.Storage e)
  | _, .error e => .error (.Storage e)
  | .ok current_tip_hash, .ok current_height =>
    if current_tip_hash.isSome ≠ current_height.isSome then
      .error (.Initialization "Inconsistent tip hash and height in storage")
    else
      .ok { storage := storage, mempool := Mempool.new MEMPOOL_MAX_SIZE,
            current_tip_hash := current_tip_hash, current_height := current_height }

/-- `Blockchain::initialize_genesis_if_needed` (clock passed as `now`): if a
tip is cached do nothing, else save a height-0 block with zero previous
hash, empty transactions, difficulty `MIN_DIFFICULTY`, nonce 0. -/
def Blockchain.initialize_genesis_if_needed (bc : Blockchain) (now : Nat) :
    Blockchain × Except BlockchainError Unit :=
  if bc.current_height.isSome then (bc, .ok ())
  else
    (fun genesis_block =>
      ({ bc with storage := bc.storage.save_block genesis_block,
                 current_tip_hash := some genesis_block.hash,
                 current_height := some 0 }, .ok ()))
    { header := { previous_hash := zeroHash,
                  merkle_root := Block.calculate_merkle_root [],
                  timestamp := now, nonce := 0,
                  difficulty := MIN_DIFFICULTY, height := 0 },
      transactions := [] }

/-- `Blockchain::add_block` of src/src/core/mod.rs: height, previous-hash and
merkle checks (Validation), PoW and expected-difficulty checks (Consensus),
then the atomic save and cache update. -/
def Blockchain.add_block (bc : Blockchain) (block : Block) :
    Blockchain × Except BlockchainError Unit :=
  match bc.current_height, bc.current_tip_hash with
  | some current_height, some current_tip_hash =>
    if block.header.height ≠ current_height + 1 then
      (bc, .error (.Validation "Invalid block height"))
    else if block.header.previous_hash ≠ current_tip_hash then
      (bc, .error (.Validation "Invalid previous block hash"))
    else if block.header.merkle_root ≠ Block.calculate_merkle_root block.transactions then
      (bc, .error (.Validation "Invalid Merkle root"))
    else if ¬ verify_pow block.hash block.header.difficulty then
      (bc, .error (.Consensus "Invalid Proof-of-Work"))
    else
      match calculate_next_difficulty current_height bc.storage with
      | .error e => (bc, .error (.Consensus e))
      | .ok expected_difficulty =>
        if block.header.difficulty ≠ expected_difficulty then
          (bc, .error (.Consensus "Incorrect difficulty"))
        else
          ({ bc with storage := bc.storage.save_block block,
                     current_tip_hash := some block.hash,
                     current_height := some block.header.height }, .ok ())
  | _, _ => (bc, .error .NotInitialized)

/-- `Blockchain::process_mined_block`: run `add_block`; on success remove the
block's transactions from the mempool, on failure propagate the error. -/
def Blockchain.process_mined_block (bc : Blockchain) (mined_block : Block) :
    Blockchain × Except BlockchainError Unit :=
  match bc.add_block mined_block with
  | (bc1, .error e) => (bc1, .error e)
  | (bc1, .ok ()) =>
    ({ bc1 with mempool := (bc1.mempool.remove_transactions
        (mined_block.transactions.map Transaction.calculate_hash)) }, .ok ())

/-- `enum OffChainStorageError` of src/src/offchain_storage.rs (`NotFound`
carries the hash whose hex rendering the code reports). -/
inductive OffChainStorageError where
  | Io : String → OffChainStorageError
  | InvalidHashFormat : String → OffChainStorageError
  | NotFound : Hash → OffChainStorageError
  | DirectoryCreationFailed : String → OffChainStorageError
deriving DecidableEq

/-- The blob directory of `OffChainStorageManager`: file name (the content
hash, standing for its lower-case hex) → file contents. -/
structure OffChainStorageManager where
  files : List (Hash × List Nat)
deriving DecidableEq

/-- `OffChainStorageManager::store_payload`: hash the payload; if a file of
that name exists skip the write, else create it. -/
def OffChainStorageManager.store_payload (s : OffChainStorageManager) (payload : List Nat) :
    OffChainStorageManager × Hash :=
  if (s.files.lookup (sha256 payload)).isSome then (s, sha256 payload)
  else ({ files := (sha256 payload, payload) :: s.files }, sha256 payload)

/-- `OffChainStorageManager::retrieve_payload`: read the file named by the
hash, `NotFound` when absent. -/
def OffChainStorageManager.retrieve_payload (s : OffChainStorageManager) (payload_hash : Hash) :
    Except OffChainStorageError (List Nat) :=
  match s.files.lookup payload_hash with
  | some buffer => .ok buffer
  | none => .error (.NotFound payload_hash)

end Chain
namespace Chain

lemma take_all_zero (l : List Nat) (k : Nat) :
    ((l.take k).all fun b => b == 0) = true ↔
      (∀ i < k, ∀ b, l.get? i = some b → b = 0) := by
  induction l generalizing k with
  | nil =>
    simp [List.all_eq_true]
  | cons a t ih =>
    cases k with
    | zero => simp
    | succ k' =>
      simp only [List.take_succ_cons, List.all_cons, Bool.and_eq_true, beq_iff_eq, ih]
      constructor
      · rintro ⟨ha, hrest⟩ i hi b hb
        cases i with
        | zero => simp_all
        | succ j =>
          exact hrest j (Nat.lt_of_succ_lt_succ hi) b hb
      · intro hall
        refine ⟨hall 0 (Nat.succ_pos _) a rfl, fun j hj b hb => ?_⟩
        exact hall (j + 1) (Nat.succ_lt_succ hj) b hb

set_option maxRecDepth 8192 in
lemma mask_iff_shift :
    ∀ b < 256, ∀ r < 8, 0 < r →
      ((b &&& ((255 <<< (8 - r)) % 256) = 0) ↔ b >>> (8 - r) = 0) := by
  decide

end Chain
namespace Chain

/-- C4: `verify_pow h d` holds exactly when every byte among the first
`d / 8` is zero and, when `d % 8 ≠ 0`, byte number `d / 8` exists and its
top `d % 8` bits are zero; and `verify_pow h 0` accepts every hash. -/
theorem verify_pow_leading_zero_bits (h : Hash) (d : Nat)
    (hlen : h.length = 32) (hbytes : ∀ b ∈ h, b < 256) :
    (verify_pow h d = true ↔
      ((∀ i < d / 8, ∀ b, h.get? i = some b → b = 0) ∧
       (d % 8 ≠ 0 → ∃ b, h.get? (d / 8) = some b ∧ b >>> (8 - d % 8) = 0))) ∧
    verify_pow h 0 = true := by
  constructor
  · by_cases hd0 : d = 0
    · subst hd0
      simp [verify_pow]
    · rw [verify_pow, if_neg hd0]
      by_cases hall : ((h.take (d / 8)).all fun b => b == 0) = true
      · rw [if_neg (not_not_intro hall)]
        by_cases hr : d % 8 > 0
        · rw [if_pos hr]
          cases hget : h.get? (d / 8) with
          | none =>
            show false = true ↔ _
            constructor
            · intro hfalse
              exact absurd hfalse (by simp)
            · rintro ⟨-, hex⟩
              obtain ⟨b, hb, -⟩ := hex (Nat.pos_iff_ne_zero.mp hr)
              exact absurd hb (by simp)
          | some b =>
            have hb256 : b < 256 := hbytes b (List.get?_mem hget)
            have hmod : d % 8 < 8 := Nat.mod_lt _ (by norm_num)
            have hmask := mask_iff_shift b hb256 (d % 8) hmod hr
            show (if b &&& ((255 <<< (8 - d % 8)) % 256) ≠ 0 then false else true) = true ↔ _
            by_cases hZ : b &&& ((255 <<< (8 - d % 8)) % 256) = 0
            · rw [if_neg (not_not_intro hZ)]
              constructor
              · intro _
                exact ⟨(take_all_zero h (d / 8)).mp hall, fun _ => ⟨b, rfl, hmask.mp hZ⟩⟩
              · intro _
                rfl
            · rw [if_pos hZ]
              constructor
              · intro hfalse
                exact absurd hfalse (by simp)
              · rintro ⟨-, hex⟩
                obtain ⟨b', hb', hsh⟩ := hex (Nat.pos_iff_ne_zero.mp hr)
                cases hb'
                exact absurd (hmask.mpr hsh) hZ
        · rw [if_neg hr]
          have hr0 : d % 8 = 0 := Nat.eq_zero_of_not_pos hr
          constructor
          · intro _
            exact ⟨(take_all_zero h (d / 8)).mp hall, fun hc => absurd hr0 hc⟩
          · intro _
            rfl
      · rw [if_pos hall]
        constructor
        · intro hfalse
          exact absurd hfalse (by simp)
        · rintro ⟨hz, -⟩
          exact absurd ((take_all_zero h (d / 8)).mpr hz) hall
  · simp [verify_pow]

end Chain
namespace Chain

lemma clamp_comm {α : Type*} [LinearOrder α] (lo hi x : α) (hlohi : lo ≤ hi) :
    max lo (min x hi) = min (max x lo) hi := by
  rw [max_min_distrib_left, max_eq_right hlohi, max_comm]

/-- C3 (amended): on a chain whose tip at height `h` is `tip` (difficulty
`D`), `calculate_next_difficulty h` returns `D` off the adjustment boundary
and when the interval would anchor on genesis; on a boundary with interval
start `start`, it returns `clamp((D + 1) mod 2^32, 4, 60)` when the
saturating timestamp difference is zero, and otherwise
`clamp(round(D * clamp(12000 / actual, 1/4, 4)), 4, 60)` where the
u64-to-f64 cast of `actual`, the division and the product are each rounded
to the nearest IEEE-754 binary64 value (ties to even) and `round` is
f64::round (ties away from zero). -/
theorem calculate_next_difficulty_branches_f64 (storage : StorageManager) (h : Nat) (tip : Block)
    (htip : storage.get_block_by_height h = .ok (some tip)) :
    ((h + 1) % 20 ≠ 0 →
      calculate_next_difficulty h storage = .ok tip.header.difficulty) ∧
    ((h + 1) % 20 = 0 → h - 19 = 0 →
      calculate_next_difficulty h storage = .ok tip.header.difficulty) ∧
    (∀ start : Block, (h + 1) % 20 = 0 → h - 19 ≠ 0 →
      storage.get_block_by_height (h - 19) = .ok (some start) →
      tip.header.timestamp - start.header.timestamp = 0 →
      calculate_next_difficulty h storage =
        .ok (min (max ((tip.header.difficulty + 1) % 4294967296) 4) 60)) ∧
    (∀ start : Block, (h + 1) % 20 = 0 → h - 19 ≠ 0 →
      storage.get_block_by_height (h - 19) = .ok (some start) →
      tip.header.timestamp - start.header.timestamp ≠ 0 →
      calculate_next_difficulty h storage =
        .ok (min (max (qRoundTiesAwayToNat (f64mulNat tip.header.difficulty
          (f64clamp
            (f64div (f64ofNat 12000)
              (f64ofNat (tip.header.timestamp - start.header.timestamp)))
            (f64div (f64ofNat 1) (4, 1)) (4, 1)))) 4) 60)) := by
  have hconst : ADJUSTMENT_INTERVAL_BLOCKS = 20 := rfl
  refine ⟨?_, ?_, ?_, ?_⟩
  · intro hmod
    simp only [calculate_next_difficulty, htip, hconst]
    rw [if_pos hmod]
  · intro hmod hs
    simp only [calculate_next_difficulty, htip, hconst]
    rw [if_neg (not_not_intro hmod), if_pos (by simpa using hs)]
  · intro start hmod hs hstart hzero
    simp only [calculate_next_difficulty, htip, hconst]
    rw [if_neg (not_not_intro hmod), if_neg (by simpa using hs)]
    simp only [hstart]
    rw [if_pos hzero]
    rw [show MIN_DIFFICULTY = 4 from rfl, show MAX_DIFFICULTY = 60 from rfl,
      clamp_comm 4 60 ((tip.header.difficulty + 1) % 4294967296) (by norm_num)]
  · intro start hmod hs hstart hzero
    simp only [calculate_next_difficulty, htip, hconst]
    rw [if_neg (not_not_intro hmod), if_neg (by simpa using hs)]
    simp only [hstart]
    rw [if_neg hzero]
    rw [show MIN_DIFFICULTY = 4 from rfl, show MAX_DIFFICULTY = 60 from rfl,
      show MAX_DIFFICULTY_CHANGE_FACTOR = ((4, 1) : Nat × Nat) from rfl,
      show TARGET_BLOCK_TIME_SECS * 20 = 12000 from rfl]
    rw [clamp_comm 4 60 _ (by norm_num)]

end Chain
namespace Chain

/-- Concrete tip block for the difficulty witness (spec scenario 3). -/
def wTip : Block :=
  { header := { previous_hash := zeroHash, merkle_root := zeroHash, timestamp := 3000,
                nonce := 0, difficulty := 10, height := 39 }, transactions := [] }

/-- Concrete interval-start block for the difficulty witness. -/
def wStart : Block :=
  { header := { previous_hash := zeroHash, merkle_root := zeroHash, timestamp := 0,
                nonce := 0, difficulty := 10, height := 20 }, transactions := [] }

/-- Concrete storage for the difficulty witness. -/
def wStore : StorageManager :=
  { blocks := [(List.replicate 32 1, wTip), (List.replicate 32 2, wStart)],
    heightToHash := [(39, List.replicate 32 1), (20, List.replicate 32 2)],
    lastHash := some (List.replicate 32 1),
    chainHeight := some (u64BE 39) }

set_option maxRecDepth 1000000 in
/-- C3 (amended) witness: an interval completed 4× too fast from tip
difficulty 10 yields clamped difficulty 40 (every float step is exact on
this input, so f64 and exact arithmetic agree here). -/
theorem calculate_next_difficulty_branches_f64_witness :
    calculate_next_difficulty 39 wStore = .ok 40 := by
  have h4 := (calculate_next_difficulty_branches_f64 wStore 39 wTip rfl).2.2.2 wStart
    (by decide) (by decide) rfl (by decide)
  rw [h4]
  exact congrArg Except.ok (by decide)

/-- Tip block for the C3 counterexample: difficulty 11, timestamp 17600. -/
def cTip : Block := Block.mk (BlockHeader.mk zeroHash zeroHash 17600 0 11 39) []

/-- Interval-start block for the C3 counterexample: timestamp 0. -/
def cStart : Block := Block.mk (BlockHeader.mk zeroHash zeroHash 0 0 11 20) []

/-- Storage for the C3 counterexample: tip at height 39, start at 20, so
the interval just completed took 17600 seconds. -/
def cStore : StorageManager :=
  StorageManager.mk
    [(List.replicate 32 1, cTip), (List.replicate 32 2, cStart)]
    [(39, List.replicate 32 1), (20, List.replicate 32 2)]
    (some (List.replicate 32 1)) (some (u64BE 39))

set_option maxRecDepth 1000000 in
/-- C3 counterexample: with tip difficulty 11 and actual interval 17600 s,
the program's f64 arithmetic computes `11.0 * (12000.0 / 17600.0)` as the
double 7.499999999999999 (below 7.5) and `f64::round` gives 7, while the
claim's exact-real formula `round(11 * clamp(12000 / 17600, 1/4, 4)) =
round(7.5)` gives 8 and clamps to 8 — so the claim's exact-arithmetic
formula does not describe `calculate_next_difficulty`. -/
theorem next_difficulty_exact_round_counterexample :
    calculate_next_difficulty 39 cStore = .ok 7 ∧
    min (max ((ratRound ((11 : ℚ) *
      (min (max ((12000 : ℚ) / (17600 : ℚ)) (1 / 4)) 4))).toNat) 4) 60 = 8 := by
  constructor
  · rfl
  · have h1 : min (max ((12000 : ℚ) / 17600) (1 / 4)) 4 = 15 / 22 := by
      rw [show (12000 : ℚ) / 17600 = 15 / 22 by norm_num]
      rw [max_eq_left (by norm_num), min_eq_left (by norm_num)]
    rw [h1, show (11 : ℚ) * (15 / 22) = 15 / 2 by norm_num,
      show ratRound (15 / 2 : ℚ) = 8 by rw [ratRound]; norm_num]
    decide

/-- Storage whose persisted metadata values have malformed lengths. -/
def badStore : StorageManager :=
  { blocks := [], heightToHash := [(0, [1, 2, 3])],
    lastHash := some [1, 2, 3], chainHeight := some [7] }

/-- Storage with no persisted metadata at all. -/
def missStore : StorageManager :=
  { blocks := [], heightToHash := [], lastHash := none, chainHeight := none }

/-- C5 counterexample: a stored hash of length 3 and a stored height of
length 1 make every reader return `Ok(None)` — byte-for-byte the same
absence value the readers return for missing keys — not an error. -/
theorem malformed_length_counterexample :
    badStore.get_hash_by_height 0 = .ok none ∧
    badStore.get_last_block_hash = .ok none ∧
    badStore.get_chain_height = .ok none ∧
    missStore.get_hash_by_height 0 = .ok none ∧
    missStore.get_last_block_hash = .ok none ∧
    missStore.get_chain_height = .ok none :=
  ⟨rfl, rfl, rfl, rfl, rfl, rfl⟩

/-- C5 amended: a persisted value of malformed length (hash length ≠ 32,
height length ≠ 8) makes the read return the absence value `Ok(None)`
(after logging), identical to a missing key. -/
theorem malformed_length_returns_absence (s : StorageManager) :
    (∀ height v, s.heightToHash.lookup height = some v → v.length ≠ 32 →
      s.get_hash_by_height height = .ok none) ∧
    (∀ v, s.lastHash = some v → v.length ≠ 32 → s.get_last_block_hash = .ok none) ∧
    (∀ v, s.chainHeight = some v → v.length ≠ 8 → s.get_chain_height = .ok none) := by
  refine ⟨fun height v hv hlen => ?_, fun v hv hlen => ?_, fun v hv hlen => ?_⟩
  · rw [StorageManager.get_hash_by_height, hv]
    show (if v.length = 32 then Except.ok (some v) else Except.ok none) =
      (Except.ok none : Except String (Option Hash))
    exact if_neg hlen
  · rw [StorageManager.get_last_block_hash, hv]
    show (if v.length = 32 then Except.ok (some v) else Except.ok none) =
      (Except.ok none : Except String (Option Hash))
    exact if_neg hlen
  · rw [StorageManager.get_chain_height, hv]
    show (if v.length = 8 then Except.ok (some (beNat v)) else Except.ok none) =
      (Except.ok none : Except String (Option Nat))
    exact if_neg hlen

/-- C5 amended witness: the malformed store above, through the theorem. -/
theorem malformed_length_returns_absence_witness :
    badStore.get_hash_by_height 0 = .ok none ∧ badStore.get_last_block_hash = .ok none ∧
    badStore.get_chain_height = .ok none :=
  ⟨(malformed_length_returns_absence badStore).1 0 [1, 2, 3] rfl (by decide),
   (malformed_length_returns_absence badStore).2.1 [1, 2, 3] rfl (by decide),
   (malformed_length_returns_absence badStore).2.2 [7] rfl (by decide)⟩

/-- C8: if no stored file collides with `payload` under SHA-256 (the code's
stated assumption that an existing file of the same name has identical
content), then retrieving what `store_payload` returns yields the payload
back, the returned hash is its SHA-256, and a second `store_payload` of the
same payload returns the identical hash while leaving the store untouched
(the existence check precedes any write). -/
theorem offchain_store_retrieve_roundtrip (s : OffChainStorageManager) (payload : List Nat)
    (hnc : ∀ v, s.files.lookup (sha256 payload) = some v → v = payload) :
    (s.store_payload payload).1.retrieve_payload (s.store_payload payload).2 = .ok payload ∧
    (s.store_payload payload).2 = sha256 payload ∧
    (s.store_payload payload).1.store_payload payload =
      ((s.store_payload payload).1, sha256 payload) := by
  rw [OffChainStorageManager.store_payload]
  by_cases hex : (s.files.lookup (sha256 payload)).isSome = true
  · rw [if_pos hex]
    obtain ⟨v, hv⟩ := Option.isSome_iff_exists.mp hex
    refine ⟨?_, rfl, ?_⟩
    · rw [OffChainStorageManager.retrieve_payload, hv, hnc v hv]
    · rw [OffChainStorageManager.store_payload, if_pos hex]
  · rw [if_neg hex]
    refine ⟨?_, rfl, ?_⟩
    · rw [OffChainStorageManager.retrieve_payload]
      simp [List.lookup]
    · rw [OffChainStorageManager.store_payload]
      simp [List.lookup]

/-- C8 witness: an empty store and the payload `[1, 2, 3]`. -/
theorem offchain_store_retrieve_roundtrip_witness :
    (OffChainStorageManager.mk [] |>.store_payload [1, 2, 3]).1.retrieve_payload
      ((OffChainStorageManager.mk [] |>.store_payload [1, 2, 3]).2) = .ok [1, 2, 3] :=
  (offchain_store_retrieve_roundtrip (OffChainStorageManager.mk []) [1, 2, 3]
    (fun v hv => Option.noConfusion hv)).1

end Chain
namespace Chain

lemma lookup_filter_self (l : List (Hash × Transaction)) (h : Hash) :
    List.lookup h (l.filter fun p => p.1 ≠ h) = none := by
  induction l with
  | nil => rfl
  | cons a t ih =>
    obtain ⟨k, v⟩ := a
    rw [List.filter_cons]
    by_cases hk : k = h
    · rw [if_neg (by simp [hk])]
      exact ih
    · rw [if_pos (by simp [hk])]
      simp only [List.lookup, beq_eq_false_iff_ne.mpr (Ne.symm hk)]
      exact ih

lemma lookup_cons_ne (k : Hash) (v : Transaction) (l : List (Hash × Transaction)) (h : Hash)
    (hne : k ≠ h) : List.lookup h ((k, v) :: l) = List.lookup h l := by
  simp only [List.lookup, beq_eq_false_iff_ne.mpr (Ne.symm hne)]

/-- C6: adding a duplicate leaves the mempool untouched and reports
not-added; adding a fresh transaction to a full mempool evicts the head of
the insertion order and appends the new hash at the tail; and the literal
capacity-2 scenario: after tx1, tx2, tx3 the pool holds exactly tx2 and tx3
and `get_transactions 10` returns them in order. -/
theorem mempool_add_dedup_evict_fifo (m : Mempool) (tx : Transaction) :
    ((m.transactions.lookup tx.calculate_hash).isSome = true →
      m.add_transaction tx = (m, .ok false)) ∧
    (∀ oldest rest, m.transactions.lookup tx.calculate_hash = none →
      m.transactions.length = m.max_size → m.order = oldest :: rest →
      (m.transactions.lookup oldest).isSome = true →
      m.add_transaction tx =
        ({ transactions := (tx.calculate_hash, tx) ::
             (m.transactions.filter fun p => p.1 ≠ oldest),
           order := rest ++ [tx.calculate_hash],
           max_size := m.max_size }, .ok true) ∧
      ((m.add_transaction tx).1.transactions.lookup oldest = none) ∧
      ((m.add_transaction tx).1.transactions.lookup tx.calculate_hash = some tx)) ∧
    (∀ t1 t2 t3 : Transaction,
      t1.calculate_hash ≠ t2.calculate_hash →
      t1.calculate_hash ≠ t3.calculate_hash →
      t2.calculate_hash ≠ t3.calculate_hash →
      ∀ m3, m3 = ((((Mempool.new 2).add_transaction t1).1.add_transaction t2).1.add_transaction t3).1 →
        m3.transactions.lookup t1.calculate_hash = none ∧
        m3.transactions.lookup t2.calculate_hash = some t2 ∧
        m3.transactions.lookup t3.calculate_hash = some t3 ∧
        m3.order = [t2.calculate_hash, t3.calculate_hash] ∧
        m3.get_transactions 10 = [t2, t3]) := by
  refine ⟨?_, ?_, ?_⟩
  · intro hdup
    rw [Mempool.add_transaction, if_pos hdup]
  · intro oldest rest hnew hfull horder hold
    have hne : oldest ≠ tx.calculate_hash := by
      intro heq
      rw [heq, hnew] at hold
      exact absurd hold (by simp)
    have hres : m.add_transaction tx =
        ({ transactions := (tx.calculate_hash, tx) ::
             (m.transactions.filter fun p => p.1 ≠ oldest),
           order := rest ++ [tx.calculate_hash],
           max_size := m.max_size }, .ok true) := by
      rw [Mempool.add_transaction, if_neg (by simp [hnew]), if_pos hfull.ge, horder]
    refine ⟨hres, ?_, ?_⟩
    · rw [hres]
      rw [lookup_cons_ne _ _ _ _ (Ne.symm hne)]
      exact lookup_filter_self m.transactions oldest
    · rw [hres]
      simp [List.lookup]
  · intro t1 t2 t3 h12 h13 h23 m3 hm3
    have e1 : (Mempool.new 2).add_transaction t1 =
        ({ transactions := [(t1.calculate_hash, t1)], order := [t1.calculate_hash],
           max_size := 2 }, .ok true) := by
      rw [Mempool.add_transaction]
      simp [Mempool.new]
    have e2 : (Mempool.mk [(t1.calculate_hash, t1)] [t1.calculate_hash] 2).add_transaction t2 =
        (Mempool.mk [(t2.calculate_hash, t2), (t1.calculate_hash, t1)]
          [t1.calculate_hash, t2.calculate_hash] 2, .ok true) := by
      rw [Mempool.add_transaction,
        if_neg (by simp [List.lookup, beq_eq_false_iff_ne.mpr (Ne.symm h12)]),
        if_neg (by simp)]
      rfl
    have e3 : (Mempool.mk [(t2.calculate_hash, t2), (t1.calculate_hash, t1)]
          [t1.calculate_hash, t2.calculate_hash] 2).add_transaction t3 =
        (Mempool.mk [(t3.calculate_hash, t3), (t2.calculate_hash, t2)]
          [t2.calculate_hash, t3.calculate_hash] 2, .ok true) := by
      rw [Mempool.add_transaction,
        if_neg (by simp [List.lookup, beq_eq_false_iff_ne.mpr (Ne.symm h13),
          beq_eq_false_iff_ne.mpr (Ne.symm h23)]),
        if_pos (by simp)]
      simp [List.filter_cons, Ne.symm h12]
    rw [e1] at hm3
    rw [e2] at hm3
    rw [e3] at hm3
    subst hm3
    refine ⟨?_, ?_, ?_, rfl, ?_⟩
    · rw [lookup_cons_ne _ _ _ _ (Ne.symm h13), lookup_cons_ne _ _ _ _ (Ne.symm h12)]
      rfl
    · rw [lookup_cons_ne _ _ _ _ (Ne.symm h23)]
      simp [List.lookup]
    · simp [List.lookup]
    · rw [Mempool.get_transactions]
      simp [List.filterMap_cons, List.lookup, beq_eq_false_iff_ne.mpr h23]

end Chain
namespace Chain

/-- C9: with exactly one of the persisted tip hash and tip height present
(well-formed), construction fails with the inconsistent-state
Initialization error; with both absent the engine starts un-initialized;
with both present it starts with the cached tip equal to the persisted
values. -/
theorem blockchain_new_tip_consistency (storage : StorageManager) :
    (∀ v, storage.lastHash = some v → v.length = 32 → storage.chainHeight = none →
      Blockchain.new storage =
        .error (.Initialization "Inconsistent tip hash and height in storage")) ∧
    (∀ w, storage.lastHash = none → storage.chainHeight = some w → w.length = 8 →
      Blockchain.new storage =
        .error (.Initialization "Inconsistent tip hash and height in storage")) ∧
    (storage.lastHash = none → storage.chainHeight = none →
      Blockchain.new storage = .ok (Blockchain.mk storage (Mempool.new 1000) none none)) ∧
    (∀ v w, storage.lastHash = some v → v.length = 32 →
      storage.chainHeight = some w → w.length = 8 →
      Blockchain.new storage =
        .ok (Blockchain.mk storage (Mempool.new 1000) (some v) (some (beNat w)))) := by
  refine ⟨?_, ?_, ?_, ?_⟩
  · intro v hv hlen hch
    have h1 : storage.get_last_block_hash = .ok (some v) := by
      rw [StorageManager.get_last_block_hash, hv]
      exact if_pos hlen
    have h2 : storage.get_chain_height = .ok none := by
      rw [StorageManager.get_chain_height, hch]
    rw [Blockchain.new]
    simp only [h1, h2]
    rw [if_pos (by simp)]
  · intro w hv hch hlen
    have h1 : storage.get_last_block_hash = .ok none := by
      rw [StorageManager.get_last_block_hash, hv]
    have h2 : storage.get_chain_height = .ok (some (beNat w)) := by
      rw [StorageManager.get_chain_height, hch]
      exact if_pos hlen
    rw [Blockchain.new]
    simp only [h1, h2]
    rw [if_pos (by simp)]
  · intro hv hch
    have h1 : storage.get_last_block_hash = .ok none := by
      rw [StorageManager.get_last_block_hash, hv]
    have h2 : storage.get_chain_height = .ok none := by
      rw [StorageManager.get_chain_height, hch]
    rw [Blockchain.new]
    simp only [h1, h2]
    rw [if_neg (by simp)]
    rfl
  · intro v w hv hlenv hch hlenw
    have h1 : storage.get_last_block_hash = .ok (some v) := by
      rw [StorageManager.get_last_block_hash, hv]
      exact if_pos hlenv
    have h2 : storage.get_chain_height = .ok (some (beNat w)) := by
      rw [StorageManager.get_chain_height, hch]
      exact if_pos hlenw
    rw [Blockchain.new]
    simp only [h1, h2]
    rw [if_neg (by simp)]
    rfl

/-- C9 witness: a store with only a tip hash refuses to start; an empty
store starts un-initialized; a store with both starts with the cached tip
equal to the persisted values. -/
theorem blockchain_new_tip_consistency_witness :
    Blockchain.new (StorageManager.mk [] [] (some (List.replicate 32 9)) none) =
      .error (.Initialization "Inconsistent tip hash and height in storage") ∧
    Blockchain.new missStore = .ok (Blockchain.mk missStore (Mempool.new 1000) none none) ∧
    Blockchain.new (StorageManager.mk [] [] (some (List.replicate 32 9)) (some (u64BE 5))) =
      .ok (Blockchain.mk (StorageManager.mk [] [] (some (List.replicate 32 9)) (some (u64BE 5)))
        (Mempool.new 1000) (some (List.replicate 32 9)) (some 5)) :=
  ⟨(blockchain_new_tip_consistency _).1 (List.replicate 32 9) rfl (by decide) rfl,
   (blockchain_new_tip_consistency missStore).2.2.1 rfl rfl,
   by
    have h := (blockchain_new_tip_consistency
      (StorageManager.mk [] [] (some (List.replicate 32 9)) (some (u64BE 5)))).2.2.2
      (List.replicate 32 9) (u64BE 5) rfl (by decide) rfl (by decide)
    rw [h]
    rfl⟩

/-- C10: `initialize_genesis_if_needed` on an engine that already has a tip
returns success and changes nothing, and a second call after any first call
returns success and changes nothing, so two consecutive calls have the same
effect as one. -/
theorem initialize_genesis_idempotent (bc : Blockchain) (now1 : Nat) :
    (bc.current_height.isSome = true →
      bc.initialize_genesis_if_needed now1 = (bc, .ok ())) ∧
    (∀ now2, (bc.initialize_genesis_if_needed now1).1.initialize_genesis_if_needed now2 =
      ((bc.initialize_genesis_if_needed now1).1, .ok ())) := by
  constructor
  · intro h
    rw [Blockchain.initialize_genesis_if_needed, if_pos h]
  · intro now2
    by_cases h : bc.current_height.isSome = true
    · simp only [Blockchain.initialize_genesis_if_needed, if_pos h]
    · simp only [Blockchain.initialize_genesis_if_needed, if_neg h]
      rfl

end Chain
namespace Chain

/-- C1: on an initialized engine, `add_block` applies its checks in order —
height, previous hash, merkle root, proof-of-work, expected difficulty —
and each failure returns the corresponding Validation/Consensus error with
the engine state (storage, mempool, cached tip hash and height) exactly as
before the call. -/
theorem add_block_check_order_and_frame (bc : Blockchain) (b : Block) (ch : Nat) (th : Hash)
    (hch : bc.current_height = some ch) (hth : bc.current_tip_hash = some th) :
    (b.header.height ≠ ch + 1 →
      bc.add_block b = (bc, .error (.Validation "Invalid block height"))) ∧
    (b.header.height = ch + 1 → b.header.previous_hash ≠ th →
      bc.add_block b = (bc, .error (.Validation "Invalid previous block hash"))) ∧
    (b.header.height = ch + 1 → b.header.previous_hash = th →
      b.header.merkle_root ≠ Block.calculate_merkle_root b.transactions →
      bc.add_block b = (bc, .error (.Validation "Invalid Merkle root"))) ∧
    (b.header.height = ch + 1 → b.header.previous_hash = th →
      b.header.merkle_root = Block.calculate_merkle_root b.transactions →
      verify_pow b.hash b.header.difficulty = false →
      bc.add_block b = (bc, .error (.Consensus "Invalid Proof-of-Work"))) ∧
    (∀ e, b.header.height = ch + 1 → b.header.previous_hash = th →
      b.header.merkle_root = Block.calculate_merkle_root b.transactions →
      verify_pow b.hash b.header.difficulty = true →
      calculate_next_difficulty ch bc.storage = .error e →
      bc.add_block b = (bc, .error (.Consensus e))) ∧
    (∀ d, b.header.height = ch + 1 → b.header.previous_hash = th →
      b.header.merkle_root = Block.calculate_merkle_root b.transactions →
      verify_pow b.hash b.header.difficulty = true →
      calculate_next_difficulty ch bc.storage = .ok d →
      b.header.difficulty ≠ d →
      bc.add_block b = (bc, .error (.Consensus "Incorrect difficulty"))) := by
  refine ⟨?_, ?_, ?_, ?_, ?_, ?_⟩
  · intro h1
    rw [Blockchain.add_block]
    simp only [hch, hth]
    rw [if_pos h1]
  · intro h1 h2
    rw [Blockchain.add_block]
    simp only [hch, hth]
    rw [if_neg (not_not_intro h1), if_pos h2]
  · intro h1 h2 h3
    rw [Blockchain.add_block]
    simp only [hch, hth]
    rw [if_neg (not_not_intro h1), if_neg (not_not_intro h2), if_pos h3]
  · intro h1 h2 h3 h4
    rw [Blockchain.add_block]
    simp only [hch, hth]
    rw [if_neg (not_not_intro h1), if_neg (not_not_intro h2), if_neg (not_not_intro h3),
      if_pos (by simp [h4])]
  · intro e h1 h2 h3 h4 h5
    rw [Blockchain.add_block]
    simp only [hch, hth]
    rw [if_neg (not_not_intro h1), if_neg (not_not_intro h2), if_neg (not_not_intro h3),
      if_neg (by simp [h4]), h5]
  · intro d h1 h2 h3 h4 h5 h6
    rw [Blockchain.add_block]
    simp only [hch, hth]
    rw [if_neg (not_not_intro h1), if_neg (not_not_intro h2), if_neg (not_not_intro h3),
      if_neg (by simp [h4]), h5]
    exact if_pos h6

end Chain
namespace Chain

lemma add_block_error_state (bc : Blockchain) (b : Block) (bc' : Blockchain) (e : BlockchainError)
    (herr : bc.add_block b = (bc', .error e)) : bc' = bc := by
  rcases hh : bc.current_height with - | ch <;>
    rcases ht : bc.current_tip_hash with - | th <;>
    simp only [Blockchain.add_block, hh, ht] at herr
  any_goals
    rw [Prod.mk.injEq] at herr
    exact herr.1.symm
  split_ifs at herr with h1 h2 h3 h4
  any_goals
    rw [Prod.mk.injEq] at herr
    exact herr.1.symm
  split at herr
  · rw [Prod.mk.injEq] at herr
    exact herr.1.symm
  · split_ifs at herr with h5
    · rw [Prod.mk.injEq] at herr
      exact herr.1.symm
    · rw [Prod.mk.injEq] at herr
      exact absurd herr.2 (by simp)

/-- C2 (amended): every block that `add_block` accepts satisfies the
proof-of-work predicate at its own stated difficulty. -/
theorem add_block_accepted_pow (bc : Blockchain) (b : Block) (bc' : Blockchain)
    (hok : bc.add_block b = (bc', .ok ())) :
    verify_pow b.hash b.header.difficulty = true := by
  rcases hh : bc.current_height with - | ch <;>
    rcases ht : bc.current_tip_hash with - | th <;>
    simp only [Blockchain.add_block, hh, ht] at hok
  any_goals
    rw [Prod.mk.injEq] at hok
    exact Except.noConfusion hok.2
  split_ifs at hok with h1 h2 h3 h4
  any_goals
    rw [Prod.mk.injEq] at hok
    exact Except.noConfusion hok.2
  exact h4

lemma lookup_none_filter (l : List (Hash × Transaction)) (p : Hash × Transaction → Bool)
    (h : Hash) (hn : List.lookup h l = none) : List.lookup h (l.filter p) = none := by
  induction l with
  | nil => rfl
  | cons a t ih =>
    obtain ⟨k, v⟩ := a
    rw [List.lookup] at hn
    cases hbk : (h == k) with
    | true => rw [hbk] at hn; cases hn
    | false =>
      rw [hbk] at hn
      rw [List.filter_cons]
      by_cases hp : p (k, v) = true
      · rw [if_pos hp]
        simp only [List.lookup, hbk]
        exact ih hn
      · rw [if_neg hp]
        exact ih hn

lemma removeStep_lookup_none (m : Mempool) (h h' : Hash)
    (hn : List.lookup h m.transactions = none) :
    List.lookup h (m.removeStep h').transactions = none := by
  rw [Mempool.removeStep]
  by_cases hs : (List.lookup h' m.transactions).isSome = true
  · rw [if_pos hs]
    exact lookup_none_filter _ _ _ hn
  · rw [if_neg hs]
    exact hn

lemma removeStep_self (m : Mempool) (h : Hash) :
    List.lookup h (m.removeStep h).transactions = none := by
  rw [Mempool.removeStep]
  by_cases hs : (List.lookup h m.transactions).isSome = true
  · rw [if_pos hs]
    exact lookup_filter_self _ _
  · rw [if_neg hs]
    exact Option.not_isSome_iff_eq_none.mp hs

lemma remove_transactions_preserve (hs : List Hash) (m : Mempool) (h : Hash)
    (hn : List.lookup h m.transactions = none) :
    List.lookup h (m.remove_transactions hs).transactions = none := by
  induction hs generalizing m with
  | nil => exact hn
  | cons a t ih => exact ih _ (removeStep_lookup_none m h a hn)

lemma remove_transactions_lookup_none (hs : List Hash) (m : Mempool) (h : Hash)
    (hmem : h ∈ hs) : List.lookup h (m.remove_transactions hs).transactions = none := by
  induction hs generalizing m with
  | nil => cases hmem
  | cons a t ih =>
    rw [Mempool.remove_transactions, List.foldl_cons]
    rcases List.mem_cons.mp hmem with rfl | hmem'
    · have h1 := remove_transactions_preserve t (m.removeStep h) h (removeStep_self m h)
      rw [Mempool.remove_transactions] at h1
      exact h1
    · have h1 := ih (m.removeStep a) hmem'
      rw [Mempool.remove_transactions] at h1
      exact h1

/-- C7: when `process_mined_block` succeeds, none of the block's transaction
hashes remain in the mempool; when it fails with any error, the mempool
(contents and insertion order) is exactly as before the call. -/
theorem process_mined_block_mempool_effects (bc : Blockchain) (b : Block) :
    (∀ bc', bc.process_mined_block b = (bc', .ok ()) →
      ∀ tx ∈ b.transactions,
        List.lookup tx.calculate_hash bc'.mempool.transactions = none) ∧
    (∀ bc' e, bc.process_mined_block b = (bc', .error e) → bc'.mempool = bc.mempool) := by
  constructor
  · intro bc' hok tx htx
    rw [Blockchain.process_mined_block] at hok
    rcases hab : bc.add_block b with ⟨bc1, r⟩
    rw [hab] at hok
    cases r with
    | error e =>
      rw [Prod.mk.injEq] at hok
      exact absurd hok.2 (by simp)
    | ok u =>
      cases u
      rw [Prod.mk.injEq] at hok
      rw [← hok.1]
      exact remove_transactions_lookup_none _ _ _
        (List.mem_map_of_mem Transaction.calculate_hash htx)
  · intro bc' e herr
    rw [Blockchain.process_mined_block] at herr
    rcases hab : bc.add_block b with ⟨bc1, r⟩
    rw [hab] at herr
    cases r with
    | error e' =>
      rw [Prod.mk.injEq] at herr
      rw [← herr.1]
      rw [add_block_error_state bc b bc1 e' hab]
    | ok u =>
      cases u
      rw [Prod.mk.injEq] at herr
      exact absurd herr.2 (by simp)

end Chain
namespace Chain

/-- The empty-store engine as produced by `Blockchain.new`. -/
def bc0 : Blockchain := Blockchain.mk missStore (Mempool.new MEMPOOL_MAX_SIZE) none none

/-- The engine after writing the genesis block at time 1700000000. -/
def bcG : Blockchain := (bc0.initialize_genesis_if_needed 1700000000).1

/-- The genesis block `initialize_genesis_if_needed` writes at that time. -/
def gBlock : Block :=
  Block.mk (BlockHeader.mk zeroHash (Block.calculate_merkle_root []) 1700000000 0 MIN_DIFFICULTY 0) []

/-- A height-5 block: invalid as successor of the genesis tip. -/
def badBlock : Block := Block.mk (BlockHeader.mk zeroHash zeroHash 0 0 4 5) []

/-- A mined, empty height-1 successor of the genesis block (nonce found by
search so that the hash clears difficulty 4). -/
def minedB1 : Block :=
  Block.mk (BlockHeader.mk gBlock.hash (Block.calculate_merkle_root []) 1700000600 14 4 1) []

/-- A concrete transfer transaction. -/
def tx1 : Transaction := Transaction.mk [1] [2] 100 1700000300 none none

/-- A concrete transfer transaction distinct from `tx1`. -/
def tx2 : Transaction := Transaction.mk [3] [4] 200 1700000300 none none

/-- A concrete transfer transaction distinct from `tx1` and `tx2`. -/
def tx3 : Transaction := Transaction.mk [5] [6] 300 1700000300 none none

/-- A mined height-1 successor of genesis carrying `tx1` (nonce 4 found by
search so that the hash clears difficulty 4). -/
def minedTx1 : Block :=
  Block.mk (BlockHeader.mk gBlock.hash (Block.calculate_merkle_root [tx1]) 1700000600 4 4 1) [tx1]

/-- The genesis engine with `tx1` pending in the mempool. -/
def bcT : Blockchain :=
  Blockchain.mk bcG.storage (Mempool.mk [(tx1.calculate_hash, tx1)] [tx1.calculate_hash] 1000)
    bcG.current_tip_hash bcG.current_height

set_option maxRecDepth 1000000 in
/-- C1 witness: a height-5 block against the height-0 tip is rejected by the
first check with a Validation error and no state change. -/
theorem add_block_check_order_and_frame_witness :
    bcG.add_block badBlock = (bcG, .error (.Validation "Invalid block height")) :=
  (add_block_check_order_and_frame bcG badBlock 0 gBlock.hash rfl rfl).1 (by decide)

set_option maxRecDepth 1000000 in
/-- C2 counterexample: on a fresh store, `initialize_genesis_if_needed` at
time 1700000000 stores a genesis block whose hash does not satisfy
`verify_pow` at its own difficulty — the invariant fails for the stored
genesis block. -/
theorem stored_block_pow_counterexample :
    Blockchain.new missStore = .ok bc0 ∧
    bc0.initialize_genesis_if_needed 1700000000 = (bcG, .ok ()) ∧
    bcG.storage.get_block_by_height 0 = .ok (some gBlock) ∧
    bcG.current_tip_hash = some gBlock.hash ∧
    verify_pow gBlock.hash gBlock.header.difficulty = false :=
  ⟨rfl, rfl, rfl, rfl, by decide⟩

set_option maxRecDepth 1000000 in
/-- C2 (amended) witness: a mined height-1 block accepted by `add_block`
satisfies the PoW predicate. -/
theorem add_block_accepted_pow_witness :
    verify_pow minedB1.hash minedB1.header.difficulty = true :=
  add_block_accepted_pow bcG minedB1 (bcG.add_block minedB1).1 rfl

set_option maxRecDepth 1000000 in
/-- C6 witness: re-adding a present transaction is a no-op reporting
not-added, and the capacity-2 scenario returns [tx2, tx3]. -/
theorem mempool_add_dedup_evict_fifo_witness :
    ((Mempool.mk [(tx1.calculate_hash, tx1)] [tx1.calculate_hash] 1000).add_transaction tx1 =
      (Mempool.mk [(tx1.calculate_hash, tx1)] [tx1.calculate_hash] 1000, .ok false)) ∧
    ((((Mempool.new 2).add_transaction tx1).1.add_transaction tx2).1.add_transaction
      tx3).1.get_transactions 10 = [tx2, tx3] :=
  ⟨(mempool_add_dedup_evict_fifo
      (Mempool.mk [(tx1.calculate_hash, tx1)] [tx1.calculate_hash] 1000) tx1).1
      (by simp [List.lookup]),
   ((mempool_add_dedup_evict_fifo (Mempool.new 2) tx1).2.2 tx1 tx2 tx3
      (by decide) (by decide) (by decide) _ rfl).2.2.2.2⟩

set_option maxRecDepth 1000000 in
/-- C7 witness: processing the mined block that carries `tx1` removes
`tx1`'s hash from the mempool. -/
theorem process_mined_block_mempool_effects_witness :
    List.lookup tx1.calculate_hash
      ((bcT.process_mined_block minedTx1).1).mempool.transactions = none :=
  (process_mined_block_mempool_effects bcT minedTx1).1
    (bcT.process_mined_block minedTx1).1 rfl tx1 (by decide)

/-- C10 witness: a second genesis initialization on the already-initialized
engine is a no-op returning success. -/
theorem initialize_genesis_idempotent_witness :
    bcG.initialize_genesis_if_needed 1700000001 = (bcG, .ok ()) :=
  (initialize_genesis_idempotent bcG 1700000001).1 rfl

end Chain
namespace Chain

/-- C4 witness: the spec's PoW table hash 0x0F 0x12 … exercised through the
theorem at d = 4 (mask path) and d = 0 (accept-all). -/
theorem verify_pow_leading_zero_bits_witness :
    verify_pow (15 :: List.replicate 31 18) 4 = true ∧
    verify_pow (15 :: List.replicate 31 18) 0 = true :=
  ⟨(verify_pow_leading_zero_bits (15 :: List.replicate 31 18) 4 (by decide) (by decide)).1.mpr
      ⟨fun i hi _ _ => absurd hi (Nat.not_lt_zero i), fun _ => ⟨15, rfl, by decide⟩⟩,
    (verify_pow_leading_zero_bits (15 :: List.replicate 31 18) 0 (by decide) (by decide)).2⟩

end Chain
